import Mathlib

/-!
Verification of the protocol-translation and streaming-aggregation core of a
Chat-Completions / Responses gateway.

The development shallowly embeds the TypeScript source:

* namespace RStream — the streaming event-aggregation state machine
  (src/routes/responses/route.ts, second unit: processResponseStream and its
  handlers).  The loop body is embedded as a pure transition function
  processEvent : StreamState → ResponseEvent → StreamState × List SSEOut,
  and the for-await loop as the fold runFrom.
* namespace Handler — the reasoning-effort normalization step of
  handleCompletion (src/routes/chat-completions/handler.ts lines 110-150) and
  the passthrough chunk normalizer normalizeReasoningText (lines 192-209).
* namespace Conv — the request and response converters of
  services/copilot/create-responses.ts (convertToResponsesPayload,
  convertResponseToChatCompletion and their helpers).

Modelling conventions, stated once here:

* A JSON payload string is abstracted by how the code can observe it: it is
  empty, the literal end sentinel, a string JSON.parse rejects, or a parsed
  value of which the handlers only ever read the fields id, model, delta,
  type and item (with item.type, item.call_id, item.name).  The embedding
  therefore carries exactly those projections (absent keys are none).
* JavaScript truthiness on strings (falsy iff empty) and on numbers (falsy
  iff zero) is made explicit by truthyStr / truthyNum.
* JavaScript numbers are modelled as exact numerals (Nat for token counts,
  Rat for the effort ratios); Math.floor of a product is the rational floor.
* Date.now()-based fallback identifiers are modelled by the ChunkId
  constructor generated, keeping the captured/generated distinction without
  the wall clock.
-/

/-- Truthiness of an optional JS string: falsy iff absent or empty. -/
def truthyStr : Option String → Bool
  | some s => s ≠ ""
  | none => false

/-- Truthiness of an optional JS number: falsy iff absent or zero. -/
def truthyNum : Option Nat → Bool
  | some n => n ≠ 0
  | none => false

/-- String.startsWith, modelled over the character lists (the built-in
byte-position implementation does not reduce in the kernel). -/
def startsWithL (s p : String) : Bool := p.data.isPrefixOf s.data

namespace RStream

/-- The projections of data.item the handlers read. -/
structure ItemData where
  type : Option String
  call_id : Option String
  name : Option String
  deriving Repr, DecidableEq

/-- The projections of a successfully parsed event payload that the
handlers read. -/
structure EventData where
  id : Option String
  model : Option String
  delta : Option String
  type : Option String
  item : Option ItemData
  deriving Repr, DecidableEq

/-- An event payload string, abstracted by how the loop observes it:
the empty string, the literal end sentinel, a JSON.parse failure, or the
parsed record. -/
inductive Payload
  | empty
  | doneSentinel
  | malformed
  | parsed (d : EventData)
  deriving Repr, DecidableEq

/-- interface ResponseEvent: optional event-type tag, optional data string. -/
structure ResponseEvent where
  event : Option String
  data : Option Payload
  deriving Repr, DecidableEq

/-- interface ToolCallState.  The TS object nests a function record
holding name and arguments; every creation path sets type "function" and a
string argument buffer, so the record is flattened here. -/
structure ToolCallState where
  index : Nat
  id : Option String
  name : Option String
  arguments : String
  deriving Repr, DecidableEq

/-- interface StreamState. -/
structure StreamState where
  responseId : String
  model : String
  toolCalls : List ToolCallState
  roleEmitted : Bool
  deriving Repr, DecidableEq

/-- The chunk id: state.responseId when truthy, otherwise the generated
chatcmpl-Date.now() fallback. -/
inductive ChunkId
  | captured (s : String)
  | generated
  deriving Repr, DecidableEq

/-- The delta objects the aggregator ever emits. -/
inductive DeltaOut
  | role
  | reasoningContent (s : String)
  | contentText (s : String)
  | toolCallFrag (index : Nat) (args : String)
  | toolCallNew (index : Nat) (id : Option String) (name : Option String)
  | emptyDelta
  deriving Repr, DecidableEq

/-- createChunk output: choices[0] = index 0, delta, finish_reason,
logprobs null. -/
structure Chunk where
  id : ChunkId
  model : String
  delta : DeltaOut
  finish_reason : Option String
  deriving Repr, DecidableEq

/-- One downstream SSE write: either the end sentinel or a JSON chunk. -/
inductive SSEOut
  | doneMsg
  | chunk (c : Chunk)
  deriving Repr, DecidableEq

/-- function createChunk. -/
def createChunk (st : StreamState) (delta : DeltaOut)
    (finishReason : Option String := none) : Chunk :=
  { id := if st.responseId = "" then .generated else .captured st.responseId
    model := st.model
    delta := delta
    finish_reason := finishReason }

/-- function emitRoleIfNeeded: emit the role-announcement chunk
(delta role assistant, content empty) once per stream. -/
def emitRoleIfNeeded (st : StreamState) : StreamState × List SSEOut :=
  if st.roleEmitted then (st, [])
  else
    let st1 := { st with roleEmitted := true }
    (st1, [.chunk (createChunk st1 .role none)])

/-- function handleCreatedEvent: capture id when truthy, model only when
state.model is still falsy. -/
def handleCreatedEvent (d : EventData) (st : StreamState) : StreamState :=
  let st1 :=
    if truthyStr d.id then { st with responseId := d.id.getD "" } else st
  if st1.model = "" && truthyStr d.model then
    { st1 with model := d.model.getD "" }
  else st1

/-- function handleReasoningDelta. -/
def handleReasoningDelta (st : StreamState) (d : EventData) :
    StreamState × List SSEOut :=
  let delta := d.delta.getD ""
  let er := emitRoleIfNeeded st
  (er.1, er.2 ++ [.chunk (createChunk er.1 (.reasoningContent delta) none)])

/-- function handleOutputTextDelta. -/
def handleOutputTextDelta (st : StreamState) (d : EventData) :
    StreamState × List SSEOut :=
  let delta := d.delta.getD ""
  let er := emitRoleIfNeeded st
  (er.1, er.2 ++ [.chunk (createChunk er.1 (.contentText delta) none)])

/-- Append a fragment to the argument buffer of the accumulator at
position i (identity out of range). -/
def appendArgsAt : List ToolCallState → Nat → String → List ToolCallState
  | [], _, _ => []
  | t :: ts, 0, f => { t with arguments := t.arguments ++ f } :: ts
  | t :: ts, i + 1, f => t :: appendArgsAt ts i f

/-- The index targeted by an arguments delta: the most recently appended
accumulator, or 0 when none exists yet. -/
def lastToolIndex (st : StreamState) : Nat :=
  if st.toolCalls.length > 0 then st.toolCalls.length - 1 else 0

/-- function handleFunctionCallDelta: the delta is appended to the most
recently appended accumulator; when none exists one is created lazily at
index 0 (no id, no name, type function). -/
def handleFunctionCallDelta (st : StreamState) (d : EventData) :
    StreamState × List SSEOut :=
  let toolIndex := lastToolIndex st
  let st1 :=
    if st.toolCalls.length = 0 then
      { st with toolCalls := [⟨0, none, none, ""⟩] }
    else st
  let frag := d.delta.getD ""
  let st2 := { st1 with toolCalls := appendArgsAt st1.toolCalls toolIndex frag }
  let er := emitRoleIfNeeded st2
  (er.1, er.2 ++ [.chunk (createChunk er.1 (.toolCallFrag toolIndex frag) none)])

/-- function handleFunctionCallCreated: push a new accumulator capturing
call_id and name, empty argument buffer, and announce it with empty
arguments.  Only called when data.item has type function_call. -/
def handleFunctionCallCreated (st : StreamState) (d : EventData) :
    StreamState × List SSEOut :=
  let item := d.item.getD ⟨none, none, none⟩
  let toolIndex := st.toolCalls.length
  let st1 := { st with
    toolCalls := st.toolCalls ++ [⟨toolIndex, item.call_id, item.name, ""⟩] }
  let er := emitRoleIfNeeded st1
  (er.1, er.2 ++ [.chunk (createChunk er.1
    (.toolCallNew toolIndex item.call_id item.name) none)])

/-- function handleOutputItemDone: message gives stop, function_call gives
tool_calls, anything else emits nothing. -/
def handleOutputItemDone (st : StreamState) (d : EventData) :
    StreamState × List SSEOut :=
  let finishReason : Option String :=
    match d.item with
    | some it =>
      if it.type = some "message" then some "stop"
      else if it.type = some "function_call" then some "tool_calls"
      else none
    | none => none
  match finishReason with
  | some r => (st, [.chunk (createChunk st .emptyDelta (some r))])
  | none => (st, [])

/-- function isReasoningEvent. -/
def isReasoningEvent (eventType dataType : Option String) : Bool :=
  eventType = some "response.reasoning_summary_text.delta"
    || eventType = some "response.reasoning.delta"
    || dataType = some "response.reasoning_summary_text.delta"

/-- function isOutputTextEvent. -/
def isOutputTextEvent (eventType dataType : Option String) : Bool :=
  eventType = some "response.output_text.delta"
    || eventType = some "response.content_part.delta"
    || dataType = some "response.output_text.delta"

/-- The body of the for-await loop of processResponseStream: one upstream
event to (new state, downstream writes).  Order of the cases mirrors the
source dispatcher; the try/catch around JSON.parse is the malformed case. -/
def processEvent (st : StreamState) (e : ResponseEvent) :
    StreamState × List SSEOut :=
  match e.data with
  | none => (st, [.doneMsg])
  | some .empty => (st, [.doneMsg])
  | some .doneSentinel => (st, [.doneMsg])
  | some .malformed => (st, [])
  | some (.parsed d) =>
    let eventType := e.event
    let dataType := d.type
    if eventType = some "response.created"
        || eventType = some "response.in_progress" then
      (handleCreatedEvent d st, [])
    else if eventType = some "response.completed"
        || eventType = some "response.done" then
      (st, [.doneMsg])
    else if isReasoningEvent eventType dataType then
      handleReasoningDelta st d
    else if isOutputTextEvent eventType dataType then
      handleOutputTextDelta st d
    else if eventType = some "response.function_call_arguments.delta" then
      handleFunctionCallDelta st d
    else if eventType = some "response.output_item.added" then
      match d.item with
      | some it =>
        if it.type = some "function_call" then handleFunctionCallCreated st d
        else (st, [])
      | none => (st, [])
    else if eventType = some "response.output_item.done" then
      handleOutputItemDone st d
    else (st, [])

/-- The for-await loop: fold processEvent over the event sequence,
concatenating the downstream writes. -/
def runFrom (st : StreamState) : List ResponseEvent → StreamState × List SSEOut
  | [] => (st, [])
  | e :: es =>
    let pe := processEvent st e
    let rest := runFrom pe.1 es
    (rest.1, pe.2 ++ rest.2)

/-- The initial StreamState of processResponseStream. -/
def initState (model : String) : StreamState :=
  { responseId := "", model := model, toolCalls := [], roleEmitted := false }

/-- function processResponseStream, restricted to a finite event prefix:
final state and the ordered list of downstream SSE writes. -/
def processResponseStream (model : String) (events : List ResponseEvent) :
    StreamState × List SSEOut :=
  runFrom (initState model) events

/-- Whether a downstream write is the end sentinel. -/
def isDoneOut : SSEOut → Bool
  | .doneMsg => true
  | .chunk _ => false

/-- Events on which the loop writes the end sentinel: absent, empty or
sentinel payload, or a parsed payload tagged completed or done. -/
def isSentinelEvent (e : ResponseEvent) : Bool :=
  match e.data with
  | none => true
  | some .empty => true
  | some .doneSentinel => true
  | some .malformed => false
  | some (.parsed _) =>
    e.event = some "response.completed" || e.event = some "response.done"

/-- The outputs of emitRoleIfNeeded contain no end sentinel. -/
lemma countDone_emitRole (st : StreamState) :
    ((emitRoleIfNeeded st).2).countP isDoneOut = 0 := by
  unfold emitRoleIfNeeded
  split <;> simp [isDoneOut]

/-- handleReasoningDelta writes no sentinel. -/
lemma countDone_handleReasoningDelta (st : StreamState) (d : EventData) :
    ((handleReasoningDelta st d).2).countP isDoneOut = 0 := by
  simp only [handleReasoningDelta, List.countP_append, countDone_emitRole,
    List.countP_cons, List.countP_nil, isDoneOut]
  rfl

/-- handleOutputTextDelta writes no sentinel. -/
lemma countDone_handleOutputTextDelta (st : StreamState) (d : EventData) :
    ((handleOutputTextDelta st d).2).countP isDoneOut = 0 := by
  simp only [handleOutputTextDelta, List.countP_append, countDone_emitRole,
    List.countP_cons, List.countP_nil, isDoneOut]
  rfl

/-- handleFunctionCallDelta writes no sentinel. -/
lemma countDone_handleFunctionCallDelta (st : StreamState) (d : EventData) :
    ((handleFunctionCallDelta st d).2).countP isDoneOut = 0 := by
  simp only [handleFunctionCallDelta, List.countP_append, countDone_emitRole,
    List.countP_cons, List.countP_nil, isDoneOut]
  rfl

/-- handleFunctionCallCreated writes no sentinel. -/
lemma countDone_handleFunctionCallCreated (st : StreamState) (d : EventData) :
    ((handleFunctionCallCreated st d).2).countP isDoneOut = 0 := by
  simp only [handleFunctionCallCreated, List.countP_append, countDone_emitRole,
    List.countP_cons, List.countP_nil, isDoneOut]
  rfl

/-- handleOutputItemDone writes no sentinel. -/
lemma countDone_handleOutputItemDone (st : StreamState) (d : EventData) :
    ((handleOutputItemDone st d).2).countP isDoneOut = 0 := by
  simp only [handleOutputItemDone]
  split <;> simp [isDoneOut]

/-- One loop iteration writes the sentinel exactly on sentinel events. -/
lemma countDone_processEvent (st : StreamState) (e : ResponseEvent) :
    ((processEvent st e).2).countP isDoneOut
      = (if isSentinelEvent e then 1 else 0) := by
  rcases e with ⟨ev, dataOpt⟩
  match dataOpt with
  | none => simp [processEvent, isSentinelEvent, isDoneOut]
  | some .empty => simp [processEvent, isSentinelEvent, isDoneOut]
  | some .doneSentinel => simp [processEvent, isSentinelEvent, isDoneOut]
  | some .malformed => simp [processEvent, isSentinelEvent, isDoneOut]
  | some (.parsed d) =>
    simp only [processEvent, isSentinelEvent]
    split_ifs with h1 h2 h3 h4 h5 h6 h7 h8
    · simp only [Bool.or_eq_true, decide_eq_true_eq] at h1 h2
      rcases h1 with h | h <;> rcases h2 with h' | h' <;>
        (rw [h] at h'; exact absurd h' (by decide))
    · rfl
    · rfl
    · exact countDone_handleReasoningDelta st d
    · exact countDone_handleOutputTextDelta st d
    · exact countDone_handleFunctionCallDelta st d
    · cases d.item with
      | none => rfl
      | some it =>
        by_cases hty : it.type = some "function_call"
        · simp only [hty, if_pos]
          exact countDone_handleFunctionCallCreated st d
        · simp only [if_neg hty]
          rfl
    · exact countDone_handleOutputItemDone st d
    · rfl

/-- The loop writes one sentinel per sentinel event. -/
lemma countDone_runFrom (evs : List ResponseEvent) :
    ∀ st : StreamState,
      ((runFrom st evs).2).countP isDoneOut = evs.countP isSentinelEvent := by
  induction evs with
  | nil => intro st; simp [runFrom]
  | cons e es ih =>
    intro st
    simp only [runFrom, List.countP_cons, List.countP_append]
    rw [ih, countDone_processEvent]
    omega

/-- emitRoleIfNeeded only touches the roleEmitted flag. -/
lemma emitRole_responseId (st : StreamState) :
    (emitRoleIfNeeded st).1.responseId = st.responseId := by
  unfold emitRoleIfNeeded; split <;> rfl

/-- emitRoleIfNeeded leaves the model unchanged. -/
lemma emitRole_model (st : StreamState) :
    (emitRoleIfNeeded st).1.model = st.model := by
  unfold emitRoleIfNeeded; split <;> rfl

/-- emitRoleIfNeeded leaves the accumulators unchanged. -/
lemma emitRole_toolCalls (st : StreamState) :
    (emitRoleIfNeeded st).1.toolCalls = st.toolCalls := by
  unfold emitRoleIfNeeded; split <;> rfl

/-- handleCreatedEvent: the identifier captured, unconditionally
overwriting, whenever the event's id is truthy. -/
lemma responseId_handleCreatedEvent (d : EventData) (st : StreamState) :
    (handleCreatedEvent d st).responseId
      = if truthyStr d.id then d.id.getD "" else st.responseId := by
  simp only [handleCreatedEvent]
  split_ifs <;> rfl

/-- handleCreatedEvent: the model is written only when still empty. -/
lemma model_handleCreatedEvent (d : EventData) (st : StreamState)
    (h : st.model ≠ "") : (handleCreatedEvent d st).model = st.model := by
  simp only [handleCreatedEvent]
  split_ifs with h1 h2 h3 <;> simp_all

/-- The id, if any, that an event writes into StreamState.responseId. -/
def capturedIdOf (e : ResponseEvent) : Option String :=
  match e.data with
  | some (.parsed d) =>
    if (e.event = some "response.created"
          || e.event = some "response.in_progress")
        && truthyStr d.id then d.id
    else none
  | _ => none

/-- All ids written by a sequence of events, in order. -/
def capturedIds (evs : List ResponseEvent) : List String :=
  evs.filterMap capturedIdOf

/-- The last value written by a sequence of writes, or the default. -/
def lastWrite : List String → String → String
  | [], dflt => dflt
  | x :: xs, _ => lastWrite xs x

/-- One loop iteration updates the identifier exactly per capturedIdOf. -/
lemma responseId_processEvent (st : StreamState) (e : ResponseEvent) :
    (processEvent st e).1.responseId
      = (capturedIdOf e).getD st.responseId := by
  rcases e with ⟨ev, dataOpt⟩
  match dataOpt with
  | none => rfl
  | some .empty => rfl
  | some .doneSentinel => rfl
  | some .malformed => rfl
  | some (.parsed d) =>
    simp only [processEvent, capturedIdOf]
    by_cases h1 : (decide (ev = some "response.created")
        || decide (ev = some "response.in_progress")) = true
    · rw [if_pos h1, responseId_handleCreatedEvent, h1, Bool.true_and]
      cases hdi : d.id with
      | none => simp [truthyStr]
      | some s => by_cases hs : s = "" <;> simp [truthyStr, hs]
    · rw [if_neg h1, Bool.not_eq_true] at *
      rw [h1, Bool.false_and]
      simp only [Bool.false_eq_true, if_false, Option.getD_none]
      split_ifs with h2 h3 h4 h5 h6 h7
      · rfl
      · simp [handleReasoningDelta, emitRole_responseId]
      · simp [handleOutputTextDelta, emitRole_responseId]
      · simp only [handleFunctionCallDelta, emitRole_responseId]
        split <;> rfl
      · cases d.item with
        | none => rfl
        | some it =>
          by_cases hty : it.type = some "function_call"
          · simp only [hty, if_pos]
            simp [handleFunctionCallCreated, emitRole_responseId]
          · simp only [if_neg hty]
      · simp only [handleOutputItemDone]
        split <;> rfl
      · rfl

/-- One loop iteration never clears a non-empty model and only
handleCreatedEvent could write it, guarded by emptiness. -/
lemma model_processEvent (st : StreamState) (e : ResponseEvent)
    (h : st.model ≠ "") : (processEvent st e).1.model = st.model := by
  rcases e with ⟨ev, dataOpt⟩
  match dataOpt with
  | none => rfl
  | some .empty => rfl
  | some .doneSentinel => rfl
  | some .malformed => rfl
  | some (.parsed d) =>
    simp only [processEvent]
    split_ifs with h1 h2 h3 h4 h5 h6 h7
    · exact model_handleCreatedEvent d st h
    · rfl
    · simp [handleReasoningDelta, emitRole_model]
    · simp [handleOutputTextDelta, emitRole_model]
    · simp only [handleFunctionCallDelta, emitRole_model]
      split <;> rfl
    · cases d.item with
      | none => rfl
      | some it =>
        by_cases hty : it.type = some "function_call"
        · simp only [hty, if_pos]
          simp [handleFunctionCallCreated, emitRole_model]
        · simp only [if_neg hty]
    · simp only [handleOutputItemDone]
      split <;> rfl
    · rfl

/-- handleCreatedEvent never touches the accumulators. -/
lemma toolCalls_handleCreatedEvent (d : EventData) (st : StreamState) :
    (handleCreatedEvent d st).toolCalls = st.toolCalls := by
  simp only [handleCreatedEvent]
  split_ifs <;> rfl

/-- The argument buffer at position i, empty when out of range. -/
def argsAt (l : List ToolCallState) (i : Nat) : String :=
  ((l[i]?).map ToolCallState.arguments).getD ""

/-- The argument fragment a downstream write carries for tool index i. -/
def fragOf (i : Nat) : SSEOut → String
  | .chunk c =>
    match c.delta with
    | .toolCallFrag j s => if j = i then s else ""
    | _ => ""
  | .doneMsg => ""

/-- In-order concatenation of the argument fragments for tool index i. -/
def fragsFor (i : Nat) : List SSEOut → String
  | [] => ""
  | o :: rest => fragOf i o ++ fragsFor i rest

lemma fragsFor_append (i : Nat) (a b : List SSEOut) :
    fragsFor i (a ++ b) = fragsFor i a ++ fragsFor i b := by
  induction a with
  | nil => simp [fragsFor, String.empty_append]
  | cons o rest ih => simp [fragsFor, ih, String.append_assoc]

lemma fragsFor_emitRole (i : Nat) (st : StreamState) :
    fragsFor i (emitRoleIfNeeded st).2 = "" := by
  unfold emitRoleIfNeeded
  split <;> simp [fragsFor, fragOf, createChunk, String.append_empty]

lemma argsAt_appendArgsAt (f : String) :
    ∀ (l : List ToolCallState) (j : Nat), j < l.length →
      ∀ i, argsAt (appendArgsAt l j f) i
        = if i = j then argsAt l i ++ f else argsAt l i := by
  intro l
  induction l with
  | nil => intro j h; exact absurd h (Nat.not_lt_zero j)
  | cons t ts ih =>
    intro j h i
    cases j with
    | zero =>
      cases i with
      | zero => simp [appendArgsAt, argsAt]
      | succ k => simp [appendArgsAt, argsAt]
    | succ jj =>
      have h' : jj < ts.length := by simpa using h
      cases i with
      | zero => simp [appendArgsAt, argsAt]
      | succ k =>
        have := ih jj h' k
        simp only [appendArgsAt, argsAt] at this ⊢
        simpa [Nat.succ_inj] using this

lemma argsAt_append_single (l : List ToolCallState) (t : ToolCallState)
    (i : Nat) :
    argsAt (l ++ [t]) i = if i = l.length then t.arguments else argsAt l i := by
  rcases Nat.lt_trichotomy i l.length with h | h | h
  · rw [if_neg (by omega)]
    simp [argsAt, List.getElem?_append_left h]
  · subst h
    rw [if_pos rfl]
    simp [argsAt, List.getElem?_append_right (Nat.le_refl _)]
  · rw [if_neg (by omega)]
    have h1 : (l ++ [t])[i]? = none := by
      apply List.getElem?_eq_none
      simp
      omega
    have h2 : l[i]? = none := by
      apply List.getElem?_eq_none
      omega
    simp [argsAt, h1, h2]

/-- Out-of-range argument buffers are empty. -/
lemma argsAt_out_of_range (l : List ToolCallState) (i : Nat)
    (h : l.length ≤ i) : argsAt l i = "" := by
  have : l[i]? = none := List.getElem?_eq_none h
  simp [argsAt, this]

/-- handleFunctionCallDelta appends the event's fragment to the buffer at
lastToolIndex and leaves every other buffer unchanged. -/
lemma argsAt_handleFunctionCallDelta (st : StreamState) (d : EventData)
    (i : Nat) :
    argsAt (handleFunctionCallDelta st d).1.toolCalls i
      = if i = lastToolIndex st
        then argsAt st.toolCalls i ++ d.delta.getD ""
        else argsAt st.toolCalls i := by
  simp only [handleFunctionCallDelta, emitRole_toolCalls]
  by_cases hlen : st.toolCalls.length = 0
  · have hnil : st.toolCalls = [] := List.length_eq_zero.mp hlen
    have hidx : lastToolIndex st = 0 := by simp [lastToolIndex, hlen]
    rw [if_pos hlen, hidx]
    cases i with
    | zero => simp [appendArgsAt, argsAt, hnil]
    | succ k => simp [appendArgsAt, argsAt, hnil]
  · have hpos : 0 < st.toolCalls.length := Nat.pos_of_ne_zero hlen
    have hidx : lastToolIndex st = st.toolCalls.length - 1 := by
      simp [lastToolIndex, hpos]
    rw [if_neg hlen, hidx]
    have hlt : st.toolCalls.length - 1 < st.toolCalls.length := by omega
    rw [hidx] at *
    exact argsAt_appendArgsAt _ st.toolCalls _ hlt i

/-- The fragments written by handleFunctionCallDelta: exactly the event's
own delta, at lastToolIndex. -/
lemma fragsFor_handleFunctionCallDelta (st : StreamState) (d : EventData)
    (i : Nat) :
    fragsFor i (handleFunctionCallDelta st d).2
      = if lastToolIndex st = i then d.delta.getD "" else "" := by
  simp only [handleFunctionCallDelta]
  rw [fragsFor_append]
  rw [fragsFor_emitRole]
  simp only [fragsFor, fragOf, createChunk, String.empty_append,
    String.append_empty]

/-- One loop iteration changes each argument buffer by exactly the
fragments it writes downstream for that index. -/
lemma args_processEvent (st : StreamState) (e : ResponseEvent) (i : Nat) :
    argsAt (processEvent st e).1.toolCalls i
      = argsAt st.toolCalls i ++ fragsFor i (processEvent st e).2 := by
  rcases e with ⟨ev, dataOpt⟩
  match dataOpt with
  | none => simp [processEvent, fragsFor, fragOf, String.append_empty]
  | some .empty => simp [processEvent, fragsFor, fragOf, String.append_empty]
  | some .doneSentinel =>
    simp [processEvent, fragsFor, fragOf, String.append_empty]
  | some .malformed => simp [processEvent, fragsFor, String.append_empty]
  | some (.parsed d) =>
    simp only [processEvent]
    split_ifs with h1 h2 h3 h4 h5 h6 h7
    · rw [toolCalls_handleCreatedEvent]
      simp [fragsFor, String.append_empty]
    · simp [fragsFor, fragOf, String.append_empty]
    · simp only [handleReasoningDelta, emitRole_toolCalls]
      rw [fragsFor_append, fragsFor_emitRole]
      simp [fragsFor, fragOf, createChunk, String.append_empty]
    · simp only [handleOutputTextDelta, emitRole_toolCalls]
      rw [fragsFor_append, fragsFor_emitRole]
      simp [fragsFor, fragOf, createChunk, String.append_empty]
    · rw [argsAt_handleFunctionCallDelta, fragsFor_handleFunctionCallDelta]
      by_cases hi : i = lastToolIndex st
      · simp [hi]
      · rw [if_neg hi, if_neg (fun hc => hi hc.symm), String.append_empty]
    · cases d.item with
      | none => simp [fragsFor, String.append_empty]
      | some it =>
        by_cases hty : it.type = some "function_call"
        · simp only [hty, if_pos]
          simp only [handleFunctionCallCreated, emitRole_toolCalls]
          rw [fragsFor_append, fragsFor_emitRole]
          simp only [fragsFor, fragOf, createChunk, String.empty_append,
            String.append_empty]
          rw [argsAt_append_single]
          by_cases hi : i = st.toolCalls.length
          · rw [if_pos hi, hi, argsAt_out_of_range _ _ (Nat.le_refl _)]
          · rw [if_neg hi]
        · simp only [if_neg hty]
          simp [fragsFor, String.append_empty]
    · simp only [handleOutputItemDone]
      split <;> simp [fragsFor, fragOf, createChunk, String.append_empty]
    · simp [fragsFor, String.append_empty]

/-- Across the loop each buffer accumulates exactly the emitted
fragments for its index. -/
lemma args_runFrom (evs : List ResponseEvent) :
    ∀ (st : StreamState) (i : Nat),
      argsAt (runFrom st evs).1.toolCalls i
        = argsAt st.toolCalls i ++ fragsFor i (runFrom st evs).2 := by
  induction evs with
  | nil => intro st i; simp [runFrom, fragsFor, String.append_empty]
  | cons e es ih =>
    intro st i
    have hstep1 : (runFrom st (e :: es)).1
        = (runFrom (processEvent st e).1 es).1 := rfl
    have hstep2 : (runFrom st (e :: es)).2
        = (processEvent st e).2 ++ (runFrom (processEvent st e).1 es).2 := rfl
    rw [hstep1, hstep2, ih, args_processEvent, fragsFor_append,
      String.append_assoc]

/-- The role-announcement chunk. -/
def isRoleChunk : SSEOut → Bool
  | .chunk c =>
    match c.delta with
    | .role => true
    | _ => false
  | .doneMsg => false

/-- Content-bearing chunks: reasoning, text, or tool-call deltas. -/
def isContentChunk : SSEOut → Bool
  | .chunk c =>
    match c.delta with
    | .reasoningContent _ => true
    | .contentText _ => true
    | .toolCallFrag _ _ => true
    | .toolCallNew _ _ _ => true
    | _ => false
  | .doneMsg => false

/-- Content-bearing events: the events that the dispatcher routes to a
reasoning, output-text, or tool-call handler (in dispatcher order). -/
def isContentEvent (e : ResponseEvent) : Bool :=
  match e.data with
  | some (.parsed d) =>
    if e.event = some "response.created"
        || e.event = some "response.in_progress" then false
    else if e.event = some "response.completed"
        || e.event = some "response.done" then false
    else if isReasoningEvent e.event d.type then true
    else if isOutputTextEvent e.event d.type then true
    else if e.event = some "response.function_call_arguments.delta" then true
    else if e.event = some "response.output_item.added" then
      match d.item with
      | some it => it.type = some "function_call"
      | none => false
    else false
  | _ => false

/-- After emitRoleIfNeeded the flag is always set. -/
lemma emitRole_flag (st : StreamState) :
    (emitRoleIfNeeded st).1.roleEmitted = true := by
  unfold emitRoleIfNeeded
  split
  · assumption
  · rfl

/-- The writes of emitRoleIfNeeded, by flag. -/
lemma emitRole_outs (st : StreamState) :
    (emitRoleIfNeeded st).2
      = if st.roleEmitted then []
        else [.chunk (createChunk { st with roleEmitted := true } .role none)] := by
  unfold emitRoleIfNeeded
  split <;> rfl

/-- emitRoleIfNeeded writes one role chunk when the flag is unset. -/
lemma countRole_emitRole (st : StreamState) :
    ((emitRoleIfNeeded st).2).countP isRoleChunk
      = if st.roleEmitted then 0 else 1 := by
  rw [emitRole_outs]
  split <;> simp [isRoleChunk, createChunk]

/-- emitRoleIfNeeded never writes a content chunk. -/
lemma countContent_emitRole (st : StreamState) :
    ((emitRoleIfNeeded st).2).countP isContentChunk = 0 := by
  rw [emitRole_outs]
  split <;> simp [isContentChunk, createChunk]

/-- handleCreatedEvent never touches the role flag. -/
lemma roleEmitted_handleCreatedEvent (d : EventData) (st : StreamState) :
    (handleCreatedEvent d st).roleEmitted = st.roleEmitted := by
  simp only [handleCreatedEvent]
  split_ifs <;> rfl

/-- With the flag already set, one loop iteration keeps it set and writes
no further role chunk. -/
lemma roleTrue_step (st : StreamState) (e : ResponseEvent)
    (h : st.roleEmitted = true) :
    (processEvent st e).1.roleEmitted = true
      ∧ ((processEvent st e).2).countP isRoleChunk = 0 := by
  rcases e with ⟨ev, dataOpt⟩
  match dataOpt with
  | none => exact ⟨h, rfl⟩
  | some .empty => exact ⟨h, rfl⟩
  | some .doneSentinel => exact ⟨h, rfl⟩
  | some .malformed => exact ⟨h, rfl⟩
  | some (.parsed d) =>
    simp only [processEvent]
    split_ifs with h1 h2 h3 h4 h5 h6 h7
    · rw [roleEmitted_handleCreatedEvent]
      exact ⟨h, rfl⟩
    · exact ⟨h, rfl⟩
    · refine ⟨emitRole_flag st, ?_⟩
      simp [handleReasoningDelta, List.countP_append, countRole_emitRole, h,
        isRoleChunk, createChunk]
    · refine ⟨emitRole_flag st, ?_⟩
      simp [handleOutputTextDelta, List.countP_append, countRole_emitRole, h,
        isRoleChunk, createChunk]
    · refine ⟨emitRole_flag _, ?_⟩
      by_cases hlen : st.toolCalls.length = 0 <;>
        simp [handleFunctionCallDelta, hlen, List.countP_append,
          countRole_emitRole, h, isRoleChunk, createChunk]
    · cases hitem : d.item with
      | none => exact ⟨h, rfl⟩
      | some it =>
        by_cases hty : it.type = some "function_call"
        · simp only [hty, if_pos]
          refine ⟨emitRole_flag _, ?_⟩
          simp [handleFunctionCallCreated, List.countP_append,
            countRole_emitRole, h, isRoleChunk, createChunk]
        · simp only [if_neg hty]
          exact ⟨h, rfl⟩
    · simp only [handleOutputItemDone]
      split
      · exact ⟨h, by simp [isRoleChunk, createChunk]⟩
      · exact ⟨h, rfl⟩
    · exact ⟨h, rfl⟩

/-- A non-content event preserves the flag and writes neither a role
chunk nor a content chunk. -/
lemma noncontent_step (st : StreamState) (e : ResponseEvent)
    (hc : isContentEvent e = false) :
    (processEvent st e).1.roleEmitted = st.roleEmitted
      ∧ ((processEvent st e).2).countP isRoleChunk = 0
      ∧ ((processEvent st e).2).countP isContentChunk = 0 := by
  rcases e with ⟨ev, dataOpt⟩
  match dataOpt with
  | none => exact ⟨rfl, rfl, rfl⟩
  | some .empty => exact ⟨rfl, rfl, rfl⟩
  | some .doneSentinel => exact ⟨rfl, rfl, rfl⟩
  | some .malformed => exact ⟨rfl, rfl, rfl⟩
  | some (.parsed d) =>
    simp only [isContentEvent] at hc
    simp only [processEvent]
    split_ifs with h1 h2 h3 h4 h5 h6 h7
    · rw [roleEmitted_handleCreatedEvent]
      exact ⟨rfl, rfl, rfl⟩
    · exact ⟨rfl, rfl, rfl⟩
    · rw [if_neg h1, if_neg h2, if_pos h3] at hc
      exact absurd hc (by simp)
    · rw [if_neg h1, if_neg h2, if_neg h3, if_pos h4] at hc
      exact absurd hc (by simp)
    · rw [if_neg h1, if_neg h2, if_neg h3, if_neg h4, if_pos h5] at hc
      exact absurd hc (by simp)
    · rw [if_neg h1, if_neg h2, if_neg h3, if_neg h4, if_neg h5,
        if_pos h6] at hc
      cases hitem : d.item with
      | none => exact ⟨rfl, rfl, rfl⟩
      | some it =>
        rw [hitem] at hc
        simp at hc
        dsimp only
        rw [if_neg hc]
        exact ⟨rfl, rfl, rfl⟩
    · simp only [handleOutputItemDone]
      split
      · refine ⟨rfl, ?_, ?_⟩
        · simp [isRoleChunk, createChunk]
        · simp [isContentChunk, createChunk]
      · exact ⟨rfl, rfl, rfl⟩
    · exact ⟨rfl, rfl, rfl⟩

/-- A content event with the flag unset writes exactly the role chunk
followed by one non-role chunk, and sets the flag. -/
lemma content_step_false (st : StreamState) (e : ResponseEvent)
    (hc : isContentEvent e = true) (hr : st.roleEmitted = false) :
    (processEvent st e).1.roleEmitted = true
      ∧ ∃ c₁ c₂, (processEvent st e).2 = [c₁, c₂]
          ∧ isRoleChunk c₁ = true ∧ isRoleChunk c₂ = false := by
  rcases e with ⟨ev, dataOpt⟩
  match dataOpt with
  | none => exact absurd hc (by simp [isContentEvent])
  | some .empty => exact absurd hc (by simp [isContentEvent])
  | some .doneSentinel => exact absurd hc (by simp [isContentEvent])
  | some .malformed => exact absurd hc (by simp [isContentEvent])
  | some (.parsed d) =>
    simp only [isContentEvent] at hc
    simp only [processEvent]
    split_ifs with h1 h2 h3 h4 h5 h6 h7
    · rw [if_pos h1] at hc
      exact absurd hc (by simp)
    · rw [if_neg h1, if_pos h2] at hc
      exact absurd hc (by simp)
    · refine ⟨emitRole_flag st, ?_⟩
      simp only [handleReasoningDelta, emitRole_outs, hr, Bool.false_eq_true,
        if_false, List.cons_append, List.nil_append]
      exact ⟨_, _, rfl, by simp [isRoleChunk, createChunk],
        by simp [isRoleChunk, createChunk]⟩
    · refine ⟨emitRole_flag st, ?_⟩
      simp only [handleOutputTextDelta, emitRole_outs, hr, Bool.false_eq_true,
        if_false, List.cons_append, List.nil_append]
      exact ⟨_, _, rfl, by simp [isRoleChunk, createChunk],
        by simp [isRoleChunk, createChunk]⟩
    · refine ⟨emitRole_flag _, ?_⟩
      by_cases hlen : st.toolCalls.length = 0 <;>
        · simp only [handleFunctionCallDelta, hlen, if_true, if_false,
            emitRole_outs, hr, Bool.false_eq_true, List.cons_append,
            List.nil_append, reduceIte]
          exact ⟨_, _, rfl, by simp [isRoleChunk, createChunk],
            by simp [isRoleChunk, createChunk]⟩
    · rw [if_neg h1, if_neg h2, if_neg h3, if_neg h4, if_neg h5,
        if_pos h6] at hc
      cases hitem : d.item with
      | none =>
        rw [hitem] at hc
        exact absurd hc (by simp)
      | some it =>
        rw [hitem] at hc
        simp at hc
        dsimp only
        rw [if_pos hc]
        refine ⟨emitRole_flag _, ?_⟩
        simp only [handleFunctionCallCreated, emitRole_outs, hr,
          Bool.false_eq_true, if_false, List.cons_append, List.nil_append]
        exact ⟨_, _, rfl, by simp [isRoleChunk, createChunk],
          by simp [isRoleChunk, createChunk]⟩
    · rw [if_neg h1, if_neg h2, if_neg h3, if_neg h4, if_neg h5,
        if_neg h6] at hc
      exact absurd hc (by simp)
    · rw [if_neg h1, if_neg h2, if_neg h3, if_neg h4, if_neg h5,
        if_neg h6] at hc
      exact absurd hc (by simp)

/-- With the flag set no role chunk is ever written again. -/
lemma countRole_runFrom_true (evs : List ResponseEvent) :
    ∀ st : StreamState, st.roleEmitted = true →
      ((runFrom st evs).2).countP isRoleChunk = 0 := by
  induction evs with
  | nil => intro st _; rfl
  | cons e es ih =>
    intro st h
    have hs := roleTrue_step st e h
    have hstep : (runFrom st (e :: es)).2
        = (processEvent st e).2 ++ (runFrom (processEvent st e).1 es).2 := rfl
    rw [hstep, List.countP_append, hs.2, ih _ hs.1]

/-- A content-free event sequence writes no role chunk and no content
chunk, and preserves the flag. -/
lemma countRole_runFrom_nocontent (evs : List ResponseEvent) :
    ∀ st : StreamState, evs.any isContentEvent = false →
      ((runFrom st evs).2).countP isRoleChunk = 0
        ∧ ((runFrom st evs).2).countP isContentChunk = 0
        ∧ (runFrom st evs).1.roleEmitted = st.roleEmitted := by
  induction evs with
  | nil => intro st _; exact ⟨rfl, rfl, rfl⟩
  | cons e es ih =>
    intro st hc
    rw [List.any_cons, Bool.or_eq_false_iff] at hc
    have hs := noncontent_step st e hc.1
    have ihs := ih (processEvent st e).1 hc.2
    have hstep : (runFrom st (e :: es)).2
        = (processEvent st e).2 ++ (runFrom (processEvent st e).1 es).2 := rfl
    have hstep1 : (runFrom st (e :: es)).1
        = (runFrom (processEvent st e).1 es).1 := rfl
    refine ⟨?_, ?_, ?_⟩
    · rw [hstep, List.countP_append, hs.2.1, ihs.1]
    · rw [hstep, List.countP_append, hs.2.2, ihs.2.1]
    · rw [hstep1, ihs.2.2, hs.1]

/-- With the flag unset and at least one content event ahead, the output
is: a role-free content-free prefix, the unique role chunk, then a
role-free suffix. -/
lemma role_runFrom_content (evs : List ResponseEvent) :
    ∀ st : StreamState, st.roleEmitted = false →
      evs.any isContentEvent = true →
      ∃ pre c suf, (runFrom st evs).2 = pre ++ c :: suf
        ∧ isRoleChunk c = true
        ∧ pre.countP isRoleChunk = 0
        ∧ pre.countP isContentChunk = 0
        ∧ suf.countP isRoleChunk = 0 := by
  induction evs with
  | nil => intro st _ h; exact absurd h (by simp)
  | cons e es ih =>
    intro st hr hany
    have hstep : (runFrom st (e :: es)).2
        = (processEvent st e).2 ++ (runFrom (processEvent st e).1 es).2 := rfl
    by_cases hce : isContentEvent e = true
    · obtain ⟨hflag, c₁, c₂, houts, hc₁, hc₂⟩ := content_step_false st e hce hr
      have htail := countRole_runFrom_true es (processEvent st e).1 hflag
      refine ⟨[], c₁, c₂ :: (runFrom (processEvent st e).1 es).2, ?_, hc₁,
        rfl, rfl, ?_⟩
      · rw [hstep, houts]
        rfl
      · rw [List.countP_cons, hc₂]
        simpa using htail
    · have hce' : isContentEvent e = false := by
        cases hcv : isContentEvent e
        · rfl
        · exact absurd hcv hce
      have hs := noncontent_step st e hce'
      have hany' : es.any isContentEvent = true := by
        rw [List.any_cons, hce'] at hany
        simpa using hany
      obtain ⟨pre, c, suf, hout, hc, hpre1, hpre2, hsuf⟩ :=
        ih (processEvent st e).1 (by rw [hs.1]; exact hr) hany'
      refine ⟨(processEvent st e).2 ++ pre, c, suf, ?_, hc, ?_, ?_, hsuf⟩
      · rw [hstep, hout, List.append_assoc]
      · rw [List.countP_append, hs.2.1, hpre1]
      · rw [List.countP_append, hs.2.2, hpre2]

/-- Across the loop the identifier is the last captured id. -/
lemma responseId_runFrom (evs : List ResponseEvent) :
    ∀ st : StreamState,
      (runFrom st evs).1.responseId
        = lastWrite (capturedIds evs) st.responseId := by
  induction evs with
  | nil => intro st; rfl
  | cons e es ih =>
    intro st
    have hstep : (runFrom st (e :: es)).1 = (runFrom (processEvent st e).1 es).1 := rfl
    rw [hstep, ih, responseId_processEvent]
    unfold capturedIds
    rw [List.filterMap_cons]
    cases hc : capturedIdOf e with
    | none => simp [capturedIds, lastWrite]
    | some v => simp [capturedIds, lastWrite]

/-- Across the loop a non-empty model is never rewritten. -/
lemma model_runFrom (evs : List ResponseEvent) :
    ∀ st : StreamState, st.model ≠ "" → (runFrom st evs).1.model = st.model := by
  induction evs with
  | nil => intro st _; rfl
  | cons e es ih =>
    intro st h
    have h1 := model_processEvent st e h
    have h2 : (processEvent st e).1.model ≠ "" := by rw [h1]; exact h
    have hstep : (runFrom st (e :: es)).1 = (runFrom (processEvent st e).1 es).1 := rfl
    rw [hstep, ih _ h2, h1]

end RStream

/-- Claim C2 (counterexample): the identifier is not first-writer-wins —
after created(id a) followed by created(id b) the captured identifier is
b, the second writer's value. -/
theorem claim_c2_counterexample :
    (RStream.processResponseStream "m"
      [⟨some "response.created",
        some (.parsed ⟨some "a", none, none, none, none⟩)⟩,
       ⟨some "response.created",
        some (.parsed ⟨some "b", none, none, none, none⟩)⟩]).1.responseId
      = "b" := by rfl

/-- Claim C2 (amended): every created/in-progress event carrying a truthy
id overwrites the StreamState identifier (last writer wins), so the final
identifier is the last captured id (or empty if none was captured); the
model field is updated only if not already set, so a non-empty initial
model is never overwritten. -/
theorem claim_c2_id_last_writer (model : String)
    (evs : List RStream.ResponseEvent) :
    (RStream.processResponseStream model evs).1.responseId
        = RStream.lastWrite (RStream.capturedIds evs) ""
      ∧ (model ≠ "" →
          (RStream.processResponseStream model evs).1.model = model) :=
  ⟨RStream.responseId_runFrom evs (RStream.initState model),
   fun h => RStream.model_runFrom evs (RStream.initState model) h⟩

/-- Witness for Claim C2 at a concrete input: with a created(id a) then
in-progress(id b) sequence the identifier is the last write b and the
model gpt-5 is preserved. -/
theorem claim_c2_id_last_writer_witness :
    (RStream.processResponseStream "gpt-5"
      [⟨some "response.created",
        some (.parsed ⟨some "a", none, none, none, none⟩)⟩,
       ⟨some "response.in_progress",
        some (.parsed ⟨some "b", none, none, none, none⟩)⟩]).1.model
      = "gpt-5" :=
  (claim_c2_id_last_writer "gpt-5"
    [⟨some "response.created",
      some (.parsed ⟨some "a", none, none, none, none⟩)⟩,
     ⟨some "response.in_progress",
      some (.parsed ⟨some "b", none, none, none, none⟩)⟩]).2 (by decide)

/-- Claim C1 (counterexample): the end sentinel is not the final thing
written and processing does not stop at it — on the event sequence
[completed, output_text.delta x] the aggregator writes the sentinel and
then two further chunks (role announcement and content). -/
theorem claim_c1_counterexample :
    (RStream.processResponseStream "m"
      [⟨some "response.completed", some (.parsed ⟨none, none, none, none, none⟩)⟩,
       ⟨some "response.output_text.delta",
        some (.parsed ⟨none, none, some "x", none, none⟩)⟩]).2
    = [.doneMsg,
       .chunk ⟨.generated, "m", .role, none⟩,
       .chunk ⟨.generated, "m", .contentText "x", none⟩] := by rfl

/-- Claim C1 (amended): each end-of-stream marker (absent, empty or
sentinel payload) and each completed/done lifecycle event causes exactly
one end sentinel to be written; processing does not stop at a sentinel, so
the output carries exactly as many sentinels as there are such events and
chunks for later events may follow a sentinel. -/
theorem claim_c1_sentinel_count (model : String)
    (evs : List RStream.ResponseEvent) :
    ((RStream.processResponseStream model evs).2).countP RStream.isDoneOut
      = evs.countP RStream.isSentinelEvent :=
  RStream.countDone_runFrom evs (RStream.initState model)


/-- Claim C5: a function-call-arguments-delta event appends its delta to
the buffer of the most recently appended accumulator (lazily created at
index 0 when none exists), the emitted chunk's tool-call delta carries
only the index and that event's own fragment, and in-order concatenation
of the emitted fragments for each index equals the argument string
accumulated for that index. -/
theorem claim_c5_fragment_accumulation (model : String)
    (evs : List RStream.ResponseEvent) (st : RStream.StreamState)
    (d : RStream.EventData) :
    (∀ i, RStream.fragsFor i (RStream.processResponseStream model evs).2
        = RStream.argsAt
            (RStream.processResponseStream model evs).1.toolCalls i)
    ∧ (∀ i, RStream.argsAt
          (RStream.handleFunctionCallDelta st d).1.toolCalls i
        = if i = RStream.lastToolIndex st
          then RStream.argsAt st.toolCalls i ++ d.delta.getD ""
          else RStream.argsAt st.toolCalls i)
    ∧ (∃ r, (RStream.handleFunctionCallDelta st d).2
        = r ++ [.chunk (RStream.createChunk
            (RStream.handleFunctionCallDelta st d).1
            (.toolCallFrag (RStream.lastToolIndex st) (d.delta.getD ""))
            none)])
    ∧ (st.toolCalls = [] →
        (RStream.handleFunctionCallDelta st d).1.toolCalls.length = 1) := by
  refine ⟨fun i => ?_, fun i => RStream.argsAt_handleFunctionCallDelta st d i,
    ⟨_, rfl⟩, fun h => ?_⟩
  · have hrun := RStream.args_runFrom evs (RStream.initState model) i
    have hinit : RStream.argsAt (RStream.initState model).toolCalls i = "" :=
      RStream.argsAt_out_of_range _ _ (by simp [RStream.initState])
    rw [hinit, String.empty_append] at hrun
    exact hrun.symm
  · simp [RStream.handleFunctionCallDelta, RStream.emitRole_toolCalls, h,
      RStream.appendArgsAt, RStream.lastToolIndex]

/-- Witness for Claim C5 at concrete inputs: two argument fragments ab
and cd concatenate to the accumulated buffer, and a delta arriving with
no accumulator creates exactly one. -/
theorem claim_c5_fragment_accumulation_witness :
    (RStream.fragsFor 0 (RStream.processResponseStream "m"
        [⟨some "response.function_call_arguments.delta",
          some (.parsed ⟨none, none, some "ab", none, none⟩)⟩,
         ⟨some "response.function_call_arguments.delta",
          some (.parsed ⟨none, none, some "cd", none, none⟩)⟩]).2
      = RStream.argsAt (RStream.processResponseStream "m"
        [⟨some "response.function_call_arguments.delta",
          some (.parsed ⟨none, none, some "ab", none, none⟩)⟩,
         ⟨some "response.function_call_arguments.delta",
          some (.parsed ⟨none, none, some "cd", none, none⟩)⟩]).1.toolCalls 0)
    ∧ (RStream.handleFunctionCallDelta (RStream.initState "m")
        ⟨none, none, some "ab", none, none⟩).1.toolCalls.length = 1 :=
  ⟨(claim_c5_fragment_accumulation "m"
      [⟨some "response.function_call_arguments.delta",
        some (.parsed ⟨none, none, some "ab", none, none⟩)⟩,
       ⟨some "response.function_call_arguments.delta",
        some (.parsed ⟨none, none, some "cd", none, none⟩)⟩]
      (RStream.initState "m") ⟨none, none, some "ab", none, none⟩).1 0,
   (claim_c5_fragment_accumulation "m" []
      (RStream.initState "m") ⟨none, none, some "ab", none, none⟩).2.2.2 rfl⟩

/-- Claim C9: an event whose payload fails to parse as JSON (reaching the
try/catch, i.e. not the empty or sentinel string that the end-of-stream
case consumes first) emits nothing, leaves the StreamState unchanged,
raises nothing, and processing of the remaining events is exactly as if
the event had not occurred. -/
theorem claim_c9_malformed_skipped (st : RStream.StreamState)
    (e : RStream.ResponseEvent) (es : List RStream.ResponseEvent)
    (h : e.data = some .malformed) :
    RStream.processEvent st e = (st, [])
      ∧ RStream.runFrom st (e :: es) = RStream.runFrom st es := by
  rcases e with ⟨ev, dataOpt⟩
  cases h
  exact ⟨rfl, rfl⟩

/-- Witness for Claim C9 at a concrete input: a malformed payload between
two valid events changes nothing. -/
theorem claim_c9_malformed_skipped_witness :
    RStream.processEvent (RStream.initState "m")
        ⟨some "response.output_text.delta", some .malformed⟩
      = (RStream.initState "m", [])
    ∧ RStream.runFrom (RStream.initState "m")
        [⟨some "response.output_text.delta", some .malformed⟩,
         ⟨some "response.output_text.delta",
          some (.parsed ⟨none, none, some "hi", none, none⟩)⟩]
      = RStream.runFrom (RStream.initState "m")
        [⟨some "response.output_text.delta",
          some (.parsed ⟨none, none, some "hi", none, none⟩)⟩] :=
  claim_c9_malformed_skipped (RStream.initState "m")
    ⟨some "response.output_text.delta", some .malformed⟩
    [⟨some "response.output_text.delta",
      some (.parsed ⟨none, none, some "hi", none, none⟩)⟩] rfl


/-- Claim C6: when the event sequence contains a content-bearing event
(reasoning delta, output-text delta, or tool-call event) exactly one
role-announcement chunk is emitted, preceded by no content chunk and
followed by no second role chunk; with no content-bearing event no
role-announcement chunk is emitted at all. -/
theorem claim_c6_role_announced_once (model : String)
    (evs : List RStream.ResponseEvent) :
    ((evs.any RStream.isContentEvent = true) →
       ∃ pre c suf,
         (RStream.processResponseStream model evs).2 = pre ++ c :: suf
           ∧ RStream.isRoleChunk c = true
           ∧ pre.countP RStream.isRoleChunk = 0
           ∧ pre.countP RStream.isContentChunk = 0
           ∧ suf.countP RStream.isRoleChunk = 0)
    ∧ ((evs.any RStream.isContentEvent = false) →
       ((RStream.processResponseStream model evs).2).countP
           RStream.isRoleChunk = 0) :=
  ⟨fun h => RStream.role_runFrom_content evs (RStream.initState model) rfl h,
   fun h =>
    (RStream.countRole_runFrom_nocontent evs (RStream.initState model) h).1⟩

/-- Witness for Claim C6 at concrete inputs: a single text delta yields
exactly one role chunk in first position, and a created-only stream
yields none. -/
theorem claim_c6_role_announced_once_witness :
    (∃ pre c suf,
        (RStream.processResponseStream "m"
          [⟨some "response.output_text.delta",
            some (.parsed ⟨none, none, some "hi", none, none⟩)⟩]).2
          = pre ++ c :: suf
        ∧ RStream.isRoleChunk c = true
        ∧ pre.countP RStream.isRoleChunk = 0
        ∧ pre.countP RStream.isContentChunk = 0
        ∧ suf.countP RStream.isRoleChunk = 0)
    ∧ ((RStream.processResponseStream "m"
        [⟨some "response.created",
          some (.parsed ⟨some "a", none, none, none, none⟩)⟩]).2).countP
        RStream.isRoleChunk = 0 :=
  ⟨(claim_c6_role_announced_once "m"
      [⟨some "response.output_text.delta",
        some (.parsed ⟨none, none, some "hi", none, none⟩)⟩]).1 rfl,
   (claim_c6_role_announced_once "m"
      [⟨some "response.created",
        some (.parsed ⟨some "a", none, none, none, none⟩)⟩]).2 rfl⟩


/-! The Chat-Completions payload shape, as read by the handler and the
request converter (shape inferred from its uses in the source: messages
with role and string-or-parts content, tools wrapping a function record,
string or function tool_choice, scalar sampling fields). -/

/-- A structured content part: text, or a nested image_url record. -/
inductive ContentPart
  | text (text : String)
  | image (url : String)
  deriving Repr, DecidableEq

/-- message.content: a plain string or a list of parts (absent modelled
by the surrounding Option). -/
inductive MessageContent
  | str (s : String)
  | parts (l : List ContentPart)
  deriving Repr, DecidableEq

/-- A chat message. -/
structure Message where
  role : String
  content : Option MessageContent
  deriving Repr, DecidableEq

/-- tool.function: name, description, JSON-schema parameters (the
parameters object is passed through verbatim and is modelled opaquely as
an association list). -/
structure ToolFunctionDef where
  name : String
  description : Option String
  parameters : List (String × String)
  deriving Repr, DecidableEq

/-- A client tool (type "function" implicit in the shape). -/
structure ToolDef where
  function : ToolFunctionDef
  deriving Repr, DecidableEq

/-- tool_choice: a string directive or a function selection. -/
inductive ToolChoice
  | choiceStr (s : String)
  | choiceFn (name : String)
  deriving Repr, DecidableEq

/-- interface ChatCompletionsPayload (the fields the core reads). -/
structure ChatCompletionsPayload where
  model : String
  messages : List Message
  reasoning_effort : Option String
  thinking_budget : Option Nat
  max_tokens : Option Nat
  temperature : Option ℚ
  top_p : Option ℚ
  stream : Option Bool
  tools : Option (List ToolDef)
  tool_choice : Option ToolChoice
  deriving Repr, DecidableEq

namespace Handler

/-- The effortToRatio table of handleCompletion, in tenths: the source
decimals {none:0, minimal:0.1, low:0.2, medium:0.4, high:0.6, xhigh:0.8}
are the exact rationals r/10 for r in {0,1,2,4,6,8}; JS number arithmetic
on these inputs is exact, and Math.floor(max_tokens * (r/10)) is the Nat
division (max_tokens * r) / 10 (see floor_mul_tenths below). -/
def effortRatioTenths : String → Option Nat
  | "none" => some 0
  | "minimal" => some 1
  | "low" => some 2
  | "medium" => some 4
  | "high" => some 6
  | "xhigh" => some 8
  | _ => none

/-- The reasoning-effort to thinking-budget conversion step of
handleCompletion (handler.ts lines 119-150): for claude-prefixed models
with a truthy effort and no truthy budget, derive
max(1024, floor(max_tokens * ratio)) when the ratio is positive and
max_tokens truthy, and drop the effort field; otherwise the payload
passes through unchanged. -/
def convertReasoningEffort (p : ChatCompletionsPayload) :
    ChatCompletionsPayload :=
  if truthyStr p.reasoning_effort && !truthyNum p.thinking_budget
      && startsWithL p.model "claude" then
    let ratio : Option Nat :=
      match p.reasoning_effort with
      | some eff => effortRatioTenths eff
      | none => none
    let p1 :=
      match ratio, p.max_tokens with
      | some r, some mt =>
        if 0 < r ∧ mt ≠ 0 then
          { p with thinking_budget := some (max 1024 (mt * r / 10)) }
        else p
      | _, _ => p
    { p1 with reasoning_effort := none }
  else p

/-- The Nat division in the budget computation is the floor of the exact
rational product with the decimal ratio r/10. -/
lemma floor_mul_tenths (mt r : Nat) :
    mt * r / 10 = ⌊(mt : ℚ) * ((r : ℚ) / 10)⌋₊ := by
  have h : (mt : ℚ) * ((r : ℚ) / 10) = ((mt * r : ℕ) : ℚ) / ((10 : ℕ) : ℚ) := by
    push_cast
    ring
  rw [h, Nat.floor_div_eq_div]

/-- The delta object of a passthrough streaming chunk, as inspected by
normalizeReasoningText; unrelated delta fields are carried opaquely. -/
structure DeltaObj where
  reasoning_text : Option String
  reasoning_content : Option String
  rest : List (String × String)
  deriving Repr, DecidableEq

/-- One choices entry of a passthrough chunk. -/
structure ChoiceObj where
  delta : Option DeltaObj
  rest : List (String × String)
  deriving Repr, DecidableEq

/-- A parsed passthrough chunk body. -/
structure ChunkData where
  choices : Option (List ChoiceObj)
  rest : List (String × String)
  deriving Repr, DecidableEq

/-- The chunk.data string: a JSON.parse failure or a parsed body. -/
inductive ChunkPayload
  | malformed
  | parsed (d : ChunkData)
  deriving Repr, DecidableEq

/-- An SSE chunk of the passthrough stream. -/
structure SSEChunk where
  event : Option String
  data : Option ChunkPayload
  deriving Repr, DecidableEq

/-- The per-choice body of normalizeReasoningText: when the delta exists
and has the reasoning_text key, move the value to reasoning_content and
delete reasoning_text. -/
def normalizeChoice (ch : ChoiceObj) : ChoiceObj :=
  match ch.delta with
  | none => ch
  | some dl =>
    match dl.reasoning_text with
    | none => ch
    | some s =>
      { ch with
        delta := some
          { dl with reasoning_content := some s, reasoning_text := none } }

/-- function normalizeReasoningText: parse chunk.data, rename
reasoning_text to reasoning_content in every choice delta, reserialize;
absent choices or parse failure leave the chunk untouched. -/
def normalizeReasoningText (chunk : SSEChunk) : SSEChunk :=
  match chunk.data with
  | none => chunk
  | some .malformed => chunk
  | some (.parsed d) =>
    match d.choices with
    | none => chunk
    | some cs =>
      { chunk with
        data := some (.parsed { d with choices := some (cs.map normalizeChoice) }) }

/-- The per-chunk step of handleChatCompletionsApi's streaming loop:
normalize when chunk.data is present, then forward. -/
def forwardChunk (c : SSEChunk) : SSEChunk :=
  if c.data.isSome then normalizeReasoningText c else c

end Handler


/-- Claim C3 (counterexample): when an explicit thinking_budget is
supplied together with a reasoning_effort for a claude-prefixed model,
the normalization step is skipped entirely and the produced payload
carries BOTH fields. -/
theorem claim_c3_counterexample :
    (Handler.convertReasoningEffort
      ⟨"claude-s", [], some "high", some 2048, some 8192,
       none, none, none, none, none⟩).reasoning_effort = some "high"
    ∧ (Handler.convertReasoningEffort
      ⟨"claude-s", [], some "high", some 2048, some 8192,
       none, none, none, none, none⟩).thinking_budget = some 2048 := by
  exact ⟨by decide, by decide⟩

/-- Claim C3 (amended): provided the incoming payload carries no truthy
thinking_budget, the payload produced by the normalization step for a
claude-prefixed model never carries both a truthy reasoning_effort and a
truthy thinking_budget: whenever the step runs it removes the effort
field.  (With an explicitly supplied truthy budget the step is skipped
and both fields pass through, as the counterexample shows.) -/
theorem claim_c3_effort_budget_exclusive (p : ChatCompletionsPayload)
    (h1 : startsWithL p.model "claude" = true)
    (h2 : truthyNum p.thinking_budget = false) :
    ¬(truthyStr (Handler.convertReasoningEffort p).reasoning_effort = true
        ∧ truthyNum (Handler.convertReasoningEffort p).thinking_budget
            = true) := by
  by_cases he : truthyStr p.reasoning_effort = true
  · have hcond : (truthyStr p.reasoning_effort
        && !truthyNum p.thinking_budget
        && startsWithL p.model "claude") = true := by
      rw [he, h2, h1]
      rfl
    have hnone :
        (Handler.convertReasoningEffort p).reasoning_effort = none := by
      simp [Handler.convertReasoningEffort, hcond]
    intro hcontra
    rw [hnone] at hcontra
    exact absurd hcontra.1 (by simp [truthyStr])
  · have he' : truthyStr p.reasoning_effort = false := by
      cases hv : truthyStr p.reasoning_effort
      · rfl
      · exact absurd hv he
    have hcond : (truthyStr p.reasoning_effort
        && !truthyNum p.thinking_budget
        && startsWithL p.model "claude") = false := by
      rw [he']
      rfl
    have hid : Handler.convertReasoningEffort p = p := by
      simp [Handler.convertReasoningEffort, hcond]
    intro hcontra
    rw [hid] at hcontra
    rw [h2] at hcontra
    exact absurd hcontra.2 Bool.false_ne_true

/-- Witness for Claim C3 at a concrete input: effort high, no explicit
budget, claude target. -/
theorem claim_c3_effort_budget_exclusive_witness :
    ¬(truthyStr (Handler.convertReasoningEffort
        ⟨"claude-s", [], some "high", none, some 2048,
         none, none, none, none, none⟩).reasoning_effort = true
      ∧ truthyNum (Handler.convertReasoningEffort
        ⟨"claude-s", [], some "high", none, some 2048,
         none, none, none, none, none⟩).thinking_budget = true) :=
  claim_c3_effort_budget_exclusive
    ⟨"claude-s", [], some "high", none, some 2048,
     none, none, none, none, none⟩ (by decide) (by decide)

/-- Claim C4: with a tabulated effort level, a claude-prefixed model, no
supplied budget and a truthy max_tokens, the derived budget is
max(1024, floor(max_tokens * ratio)) with ratio = r/10 from the fixed
decimal table; a zero ratio or an absent max_tokens yields no budget
field. -/
theorem claim_c4_budget_formula (p : ChatCompletionsPayload) (eff : String)
    (r mt : Nat)
    (h1 : p.reasoning_effort = some eff)
    (h2 : Handler.effortRatioTenths eff = some r)
    (h3 : startsWithL p.model "claude" = true)
    (h4 : p.thinking_budget = none) :
    (p.max_tokens = some mt → 0 < mt →
        (Handler.convertReasoningEffort p).thinking_budget
          = if 0 < r then
              some (max 1024 ⌊(mt : ℚ) * ((r : ℚ) / 10)⌋₊)
            else none)
      ∧ (p.max_tokens = none →
        (Handler.convertReasoningEffort p).thinking_budget = none) := by
  have heff0 : eff ≠ "" := by
    intro h
    rw [h] at h2
    simp [Handler.effortRatioTenths] at h2
  have heff : truthyStr p.reasoning_effort = true := by
    rw [h1]
    simp [truthyStr, heff0]
  have hbud : truthyNum p.thinking_budget = false := by
    rw [h4]
    rfl
  have hcond : (truthyStr p.reasoning_effort
      && !truthyNum p.thinking_budget
      && startsWithL p.model "claude") = true := by
    rw [heff, hbud, h3]
    rfl
  have heff' : truthyStr (some eff) = true := by
    rw [← h1]
    exact heff
  constructor
  · intro hmt hpos
    have hmt0 : mt ≠ 0 := by omega
    rw [← Handler.floor_mul_tenths]
    by_cases hr : 0 < r
    · rw [if_pos hr]
      simp [Handler.convertReasoningEffort, hcond, h1, h2, hmt,
        if_pos (And.intro hr hmt0), heff', hbud, h3, h4, truthyNum]
    · have hnr : ¬(0 < r ∧ mt ≠ 0) := fun hx => hr hx.1
      rw [if_neg hr]
      simp [Handler.convertReasoningEffort, hcond, h1, h2, hmt, if_neg hnr,
        h4, heff', hbud, h3, truthyNum]
  · intro hmt
    simp [Handler.convertReasoningEffort, hcond, h1, h2, hmt, h4, heff',
      hbud, h3, truthyNum]

/-- Witness for Claim C4 at the claimed inputs: effort high with
max_tokens 2000 derives 1200, effort minimal with max_tokens 1000 hits
the 1024 floor. -/
theorem claim_c4_budget_formula_witness :
    (Handler.convertReasoningEffort
      ⟨"claude-s", [], some "high", none, some 2000,
       none, none, none, none, none⟩).thinking_budget = some 1200
    ∧ (Handler.convertReasoningEffort
      ⟨"claude-s", [], some "minimal", none, some 1000,
       none, none, none, none, none⟩).thinking_budget = some 1024 := by
  constructor
  · have h := (claim_c4_budget_formula
      ⟨"claude-s", [], some "high", none, some 2000,
       none, none, none, none, none⟩ "high" 6 2000
      rfl rfl (by decide) rfl).1 rfl (by decide)
    rw [h, ← Handler.floor_mul_tenths]
    decide
  · have h := (claim_c4_budget_formula
      ⟨"claude-s", [], some "minimal", none, some 1000,
       none, none, none, none, none⟩ "minimal" 1 1000
      rfl rfl (by decide) rfl).1 rfl (by decide)
    rw [h, ← Handler.floor_mul_tenths]
    decide

/-- Claim C10: on the Chat-Completions passthrough path the forwarded
chunk is normalized, not verbatim: a choice delta carrying reasoning_text
has it renamed to reasoning_content with the same value and the
reasoning_text key removed, every other field preserved; chunks whose
data is absent or not valid JSON are forwarded unchanged. -/
theorem claim_c10_reasoning_text_renamed (c : Handler.SSEChunk)
    (d : Handler.ChunkData) (cs : List Handler.ChoiceObj)
    (ch : Handler.ChoiceObj) (dl : Handler.DeltaObj) (s : String) :
    (c.data = none → Handler.forwardChunk c = c)
    ∧ (c.data = some .malformed → Handler.forwardChunk c = c)
    ∧ (c.data = some (.parsed d) → d.choices = some cs →
        (Handler.forwardChunk c).data
            = some (.parsed
                { d with choices := some (cs.map Handler.normalizeChoice) })
          ∧ (Handler.forwardChunk c).event = c.event)
    ∧ (ch.delta = some dl → dl.reasoning_text = some s →
        Handler.normalizeChoice ch
          = { ch with delta := some ({ dl with
              reasoning_content := some s, reasoning_text := none }) })
    ∧ (ch.delta = some dl → dl.reasoning_text = none →
        Handler.normalizeChoice ch = ch)
    ∧ (ch.delta = none → Handler.normalizeChoice ch = ch) := by
  refine ⟨?_, ?_, ?_, ?_, ?_, ?_⟩
  · intro h
    simp [Handler.forwardChunk, h]
  · intro h
    simp [Handler.forwardChunk, h, Handler.normalizeReasoningText]
  · intro h hcs
    rcases c with ⟨ev, dataOpt⟩
    cases h
    constructor
    · simp [Handler.forwardChunk, Handler.normalizeReasoningText, hcs]
    · simp [Handler.forwardChunk, Handler.normalizeReasoningText, hcs]
  · intro h hs
    simp [Handler.normalizeChoice, h, hs]
  · intro h hs
    simp [Handler.normalizeChoice, h, hs]
  · intro h
    simp [Handler.normalizeChoice, h]

/-- Witness for Claim C10 at a concrete chunk: one choice whose delta has
reasoning_text think renames it to reasoning_content. -/
theorem claim_c10_reasoning_text_renamed_witness :
    (Handler.forwardChunk
        ⟨none, some (.parsed
          ⟨some [⟨some ⟨some "think", none, []⟩, []⟩], []⟩)⟩).data
      = some (.parsed
          ⟨some ([⟨some ⟨some "think", none, []⟩, []⟩].map
            Handler.normalizeChoice), []⟩)
    ∧ Handler.normalizeChoice ⟨some ⟨some "think", none, []⟩, []⟩
        = ⟨some ⟨none, some "think", []⟩, []⟩ :=
  ⟨((claim_c10_reasoning_text_renamed
      ⟨none, some (.parsed ⟨some [⟨some ⟨some "think", none, []⟩, []⟩], []⟩)⟩
      ⟨some [⟨some ⟨some "think", none, []⟩, []⟩], []⟩
      [⟨some ⟨some "think", none, []⟩, []⟩]
      ⟨some ⟨some "think", none, []⟩, []⟩
      ⟨some "think", none, []⟩ "think").2.2.1 rfl rfl).1,
   (claim_c10_reasoning_text_renamed
      ⟨none, none⟩ ⟨none, []⟩ []
      ⟨some ⟨some "think", none, []⟩, []⟩
      ⟨some "think", none, []⟩ "think").2.2.2.1 rfl rfl⟩


namespace Conv

/-! The request converter convertToResponsesPayload and the response
converter convertResponseToChatCompletion of create-responses.ts. -/

/-- The reasoning config of a Responses payload. -/
structure ReasoningConfig where
  effort : String
  summary : String
  deriving Repr, DecidableEq

/-- A Responses content part: input_text or input_image. -/
inductive RContentPart
  | inputText (text : String)
  | inputImage (image_url : String)
  deriving Repr, DecidableEq

/-- item.content: a string or a list of parts. -/
inductive RItemContent
  | str (s : String)
  | parts (l : List RContentPart)
  deriving Repr, DecidableEq

/-- interface ResponseInputItem (type "message" implicit). -/
structure ResponseInputItem where
  role : String
  content : RItemContent
  deriving Repr, DecidableEq

/-- interface ResponseTool (type "function" implicit). -/
structure ResponseTool where
  name : String
  description : Option String
  parameters : List (String × String)
  deriving Repr, DecidableEq

/-- tool_choice of a Responses payload. -/
inductive RToolChoice
  | choiceStr (s : String)
  | choiceFn (name : String)
  deriving Repr, DecidableEq

/-- interface ResponsesPayload (the include field is named includeList
here, include being a Lean keyword). -/
structure ResponsesPayload where
  model : String
  input : List ResponseInputItem
  stream : Bool
  store : Bool
  instructions : Option String
  reasoning : Option ReasoningConfig
  includeList : Option (List String)
  max_output_tokens : Option Nat
  temperature : Option ℚ
  top_p : Option ℚ
  tools : Option (List ResponseTool)
  tool_choice : Option RToolChoice
  deriving Repr, DecidableEq

/-- Array.join applied to a newline separator. -/
def joinNl : List String → String
  | [] => ""
  | [t] => t
  | t :: ts => t ++ "\n" ++ joinNl ts

/-- The flattened text of a message content: the string itself, the text
parts newline-joined, or empty for absent content (content?.filter ...
join ?? ""). -/
def contentText (c : Option MessageContent) : String :=
  match c with
  | some (.str s) => s
  | some (.parts l) =>
    joinNl (l.filterMap fun p =>
      match p with
      | .text t => some t
      | .image _ => none)
  | none => ""

/-- The loop body of extractInstructions: a system/developer message
appends its text to the accumulator with a newline, except that a falsy
(absent or empty) accumulator is replaced instead. -/
def instrStep (instructions : Option String) (msg : Message) :
    Option String :=
  if msg.role = "system" ∨ msg.role = "developer" then
    let content := contentText msg.content
    if truthyStr instructions then
      some ((instructions.getD "") ++ "\n" ++ content)
    else some content
  else instructions

/-- function extractInstructions. -/
def extractInstructions (msgs : List Message) : Option String :=
  msgs.foldl instrStep none

/-- function convertMessageToInputItem: drop system/developer messages,
retag image parts, absent content becomes the empty string. -/
def convertMessageToInputItem (m : Message) : Option ResponseInputItem :=
  if m.role = "system" ∨ m.role = "developer" then none
  else
    some ⟨m.role,
      match m.content with
      | some (.str s) => .str s
      | some (.parts l) =>
        .parts (l.map fun p =>
          match p with
          | .text t => .inputText t
          | .image u => .inputImage u)
      | none => .str ""⟩

/-- function buildReasoningConfig: falsy or none effort gives no config;
otherwise map the coarse level (default medium) with summary auto. -/
def buildReasoningConfig (effort : Option String) : Option ReasoningConfig :=
  if !truthyStr effort || effort = some "none" then none
  else
    some ⟨(match effort with
      | some "minimal" => "low"
      | some "low" => "low"
      | some "medium" => "medium"
      | some "high" => "high"
      | some "xhigh" => "high"
      | _ => "medium"), "auto"⟩

/-- function convertTools: absent or empty list converts to omission. -/
def convertTools (tools : Option (List ToolDef)) :
    Option (List ResponseTool) :=
  match tools with
  | none => none
  | some ts =>
    if ts.length = 0 then none
    else some (ts.map fun t =>
      ⟨t.function.name, t.function.description, t.function.parameters⟩)

/-- function convertToolChoice: falsy (absent, or the empty string)
gives omission; strings pass through; function selections flatten. -/
def convertToolChoice (tc : Option ToolChoice) : Option RToolChoice :=
  match tc with
  | none => none
  | some (.choiceStr s) => if s = "" then none else some (.choiceStr s)
  | some (.choiceFn n) => some (.choiceFn n)

/-- function convertToResponsesPayload. -/
def convertToResponsesPayload (p : ChatCompletionsPayload) :
    ResponsesPayload :=
  let instructions := extractInstructions p.messages
  let inputMessages := p.messages.filterMap convertMessageToInputItem
  let reasoning := buildReasoningConfig p.reasoning_effort
  { model := p.model
    input := inputMessages
    stream := p.stream.getD false
    store := false
    instructions := if truthyStr instructions then instructions else none
    reasoning := reasoning
    includeList :=
      match reasoning with
      | some _ => some ["reasoning.encrypted_content"]
      | none => none
    max_output_tokens := if truthyNum p.max_tokens then p.max_tokens else none
    temperature := p.temperature
    top_p := p.top_p
    tools := convertTools p.tools
    tool_choice := convertToolChoice p.tool_choice }

/-- The flattened texts of the system/developer messages, in order. -/
def sysDevTexts (msgs : List Message) : List String :=
  msgs.filterMap fun m =>
    if m.role = "system" ∨ m.role = "developer" then
      some (contentText m.content)
    else none

/-- Appending to a non-empty string stays non-empty. -/
lemma append_ne_empty_left (s t : String) (h : s ≠ "") : s ++ t ≠ "" := by
  intro hc
  have hd := congrArg String.data hc
  rw [String.data_append] at hd
  have hs : s.data = [] := (List.append_eq_nil.mp hd).1
  apply h
  cases s with
  | mk d => cases hs; rfl

/-- joinNl distributes over gluing a newline-joined head. -/
lemma joinNl_glue (s c : String) (l : List String) :
    joinNl ((s ++ "\n" ++ c) :: l) = s ++ "\n" ++ joinNl (c :: l) := by
  cases l with
  | nil => rfl
  | cons x xs => simp [joinNl, String.append_assoc]

/-- joinNl of a list with a non-empty head is non-empty. -/
lemma joinNl_ne_empty (t : String) (ts : List String) (h : t ≠ "") :
    joinNl (t :: ts) ≠ "" := by
  cases ts with
  | nil => exact h
  | cons x xs =>
    show t ++ "\n" ++ joinNl (x :: xs) ≠ ""
    exact append_ne_empty_left _ _ (append_ne_empty_left _ _ h)

/-- The instructions fold from a non-empty accumulator newline-joins all
remaining system/developer texts, provided each is non-empty. -/
lemma instr_fold_some (msgs : List Message) :
    ∀ s : String, s ≠ "" → (∀ t ∈ sysDevTexts msgs, t ≠ "") →
      msgs.foldl instrStep (some s) = some (joinNl (s :: sysDevTexts msgs)) := by
  induction msgs with
  | nil =>
    intro s _ _
    rfl
  | cons m ms ih =>
    intro s hs h
    by_cases hm : m.role = "system" ∨ m.role = "developer"
    · have hstep : instrStep (some s) m
          = some (s ++ "\n" ++ contentText m.content) := by
        simp [instrStep, hm, truthyStr, hs]
      have hsys : sysDevTexts (m :: ms)
          = contentText m.content :: sysDevTexts ms := by
        simp [sysDevTexts, List.filterMap_cons, hm]
      have hs' : s ++ "\n" ++ contentText m.content ≠ "" :=
        append_ne_empty_left _ _ (append_ne_empty_left _ _ hs)
      have htail : ∀ t ∈ sysDevTexts ms, t ≠ "" := by
        intro t ht
        exact h t (by rw [hsys]; exact List.mem_cons_of_mem _ ht)
      rw [List.foldl_cons, hstep, ih _ hs' htail, hsys, joinNl_glue]
      have : joinNl (s :: contentText m.content :: sysDevTexts ms)
          = s ++ "\n" ++ joinNl (contentText m.content :: sysDevTexts ms) :=
        rfl
      rw [this]
    · have hstep : instrStep (some s) m = some s := by
        simp [instrStep, hm]
      have hsys : sysDevTexts (m :: ms) = sysDevTexts ms := by
        simp [sysDevTexts, List.filterMap_cons, hm]
      have htail : ∀ t ∈ sysDevTexts ms, t ≠ "" := by
        intro t ht
        exact h t (by rw [hsys]; exact ht)
      rw [List.foldl_cons, hstep, ih _ hs htail, hsys]

/-- extractInstructions is the newline-join of the system/developer
texts (none when there are none), provided each is non-empty. -/
lemma extractInstructions_eq (msgs : List Message)
    (h : ∀ t ∈ sysDevTexts msgs, t ≠ "") :
    extractInstructions msgs
      = if sysDevTexts msgs = [] then none
        else some (joinNl (sysDevTexts msgs)) := by
  induction msgs with
  | nil => rfl
  | cons m ms ih =>
    by_cases hm : m.role = "system" ∨ m.role = "developer"
    · have hsys : sysDevTexts (m :: ms)
          = contentText m.content :: sysDevTexts ms := by
        simp [sysDevTexts, List.filterMap_cons, hm]
      have hstep : instrStep none m = some (contentText m.content) := by
        simp [instrStep, hm, truthyStr]
      have hc : contentText m.content ≠ "" := by
        apply h
        rw [hsys]
        exact List.mem_cons_self _ _
      have htail : ∀ t ∈ sysDevTexts ms, t ≠ "" := by
        intro t ht
        exact h t (by rw [hsys]; exact List.mem_cons_of_mem _ ht)
      show (m :: ms).foldl instrStep none = _
      rw [List.foldl_cons, hstep, instr_fold_some ms _ hc htail, hsys,
        if_neg (by simp)]
    · have hsys : sysDevTexts (m :: ms) = sysDevTexts ms := by
        simp [sysDevTexts, List.filterMap_cons, hm]
      have hstep : instrStep none m = none := by
        simp [instrStep, hm]
      have htail : ∀ t ∈ sysDevTexts ms, t ≠ "" := by
        intro t ht
        exact h t (by rw [hsys]; exact ht)
      show (m :: ms).foldl instrStep none = _
      rw [List.foldl_cons, hstep, hsys]
      exact ih htail

end Conv

/-- Claim C7 (counterexample): a request whose only message is a system
message with empty text omits the instructions field, although a
system/developer message exists — the omission condition is emptiness of
the accumulated text, not absence of such messages. -/
theorem claim_c7_counterexample :
    (Conv.convertToResponsesPayload
      ⟨"gpt-5", [⟨"system", some (.str "")⟩],
       none, none, none, none, none, none, none, none⟩).instructions = none
    ∧ ([(⟨"system", some (.str "")⟩ : Message)].any
        fun m => m.role = "system" ∨ m.role = "developer") = true := by
  exact ⟨by decide, by decide⟩

/-- Claim C7 (amended): provided every system/developer message has
non-empty flattened text, the instructions field equals their texts
newline-joined in message order, and it is omitted exactly when no such
message exists — in particular a request with only user/assistant
messages never sets it.  (A system/developer message whose flattened
text is empty is treated as if absent for the omission test, and an
empty accumulator is replaced rather than joined.) -/
theorem claim_c7_instructions_join (p : ChatCompletionsPayload)
    (h : ∀ t ∈ Conv.sysDevTexts p.messages, t ≠ "") :
    (Conv.convertToResponsesPayload p).instructions
      = if Conv.sysDevTexts p.messages = [] then none
        else some (Conv.joinNl (Conv.sysDevTexts p.messages)) := by
  have he := Conv.extractInstructions_eq p.messages h
  show (if truthyStr (Conv.extractInstructions p.messages) then
      Conv.extractInstructions p.messages else none) = _
  rw [he]
  cases hsys : Conv.sysDevTexts p.messages with
  | nil => rfl
  | cons t ts =>
    have ht : t ≠ "" := h t (by rw [hsys]; exact List.mem_cons_self _ _)
    have hne : Conv.joinNl (t :: ts) ≠ "" := Conv.joinNl_ne_empty t ts ht
    rw [if_neg (by simp : ¬(t :: ts = ([] : List String)))]
    rw [if_pos (show truthyStr (some (Conv.joinNl (t :: ts))) = true by
      simp [truthyStr, hne])]

/-- Witness for Claim C7 at a concrete input: system a, user u,
developer b join to a-newline-b. -/
theorem claim_c7_instructions_join_witness :
    (Conv.convertToResponsesPayload
      ⟨"gpt-5",
       [⟨"system", some (.str "a")⟩, ⟨"user", some (.str "u")⟩,
        ⟨"developer", some (.str "b")⟩],
       none, none, none, none, none, none, none, none⟩).instructions
      = some "a\nb" := by
  rw [claim_c7_instructions_join _ (by decide)]
  decide


namespace Conv

/-- A tool-call record of the Chat-Completions response (type "function"
implicit). -/
structure RToolCall where
  id : String
  name : String
  arguments : String
  deriving Repr, DecidableEq

/-- A ResponseObject output item, carrying the fields the converter
reads: message content texts, reasoning summary texts, function-call
call_id/name/arguments; unknown covers the switch's default branch. -/
inductive ResponseOutputItem
  | message (content : List String)
  | reasoning (summary : Option (List String))
  | functionCall (call_id : String) (name : String) (arguments : String)
  | unknown
  deriving Repr, DecidableEq

/-- interface ExtractedContent. -/
structure ExtractedContent where
  textContent : String
  reasoningContent : String
  toolCalls : List RToolCall
  deriving Repr, DecidableEq

/-- function extractMessageContent: append every content text. -/
def extractMessageContent (content : List String) (r : ExtractedContent) :
    ExtractedContent :=
  { r with textContent := content.foldl (fun acc t => acc ++ t) r.textContent }

/-- function extractReasoningContent: append every summary text, absent
summary contributes nothing. -/
def extractReasoningContent (summary : Option (List String))
    (r : ExtractedContent) : ExtractedContent :=
  match summary with
  | none => r
  | some ss =>
    { r with
      reasoningContent := ss.foldl (fun acc t => acc ++ t) r.reasoningContent }

/-- function extractFunctionCall: push one record with the call id, the
name and the verbatim arguments. -/
def extractFunctionCall (call_id name args : String) (r : ExtractedContent) :
    ExtractedContent :=
  { r with toolCalls := r.toolCalls ++ [⟨call_id, name, args⟩] }

/-- The switch of extractOutputContent. -/
def extractItem (r : ExtractedContent) (item : ResponseOutputItem) :
    ExtractedContent :=
  match item with
  | .message c => extractMessageContent c r
  | .reasoning s => extractReasoningContent s r
  | .functionCall cid n a => extractFunctionCall cid n a r
  | .unknown => r

/-- function extractOutputContent. -/
def extractOutputContent (output : List ResponseOutputItem) :
    ExtractedContent :=
  output.foldl extractItem ⟨"", "", []⟩

/-- function determineFinishReason. -/
def determineFinishReason (toolCalls : List RToolCall) (status : String) :
    String :=
  if toolCalls.length > 0 then "tool_calls"
  else if status = "incomplete" then "length"
  else "stop"

/-- The message built by buildMessage (role assistant implicit; absent
optional fields model field omission). -/
structure ChatMessageOut where
  content : Option String
  reasoning_content : Option String
  tool_calls : Option (List RToolCall)
  deriving Repr, DecidableEq

/-- function buildMessage: content or null when empty; reasoning_content
and tool_calls only when non-empty. -/
def buildMessage (c : ExtractedContent) : ChatMessageOut :=
  { content := if c.textContent = "" then none else some c.textContent
    reasoning_content :=
      if c.reasoningContent = "" then none else some c.reasoningContent
    tool_calls :=
      if c.toolCalls.length > 0 then some c.toolCalls else none }

/-- The usage block of a ResponseObject (the fields buildUsage reads). -/
structure RespUsage where
  input_tokens : Nat
  output_tokens : Nat
  total_tokens : Nat
  deriving Repr, DecidableEq

/-- The usage block of the converted completion. -/
structure UsageOut where
  prompt_tokens : Nat
  completion_tokens : Nat
  total_tokens : Nat
  deriving Repr, DecidableEq

/-- function buildUsage. -/
def buildUsage : Option RespUsage → Option UsageOut
  | none => none
  | some u => some ⟨u.input_tokens, u.output_tokens, u.total_tokens⟩

/-- interface ResponseObject (the fields the converter reads). -/
structure ResponseObject where
  id : String
  created_at : Nat
  status : String
  model : String
  output : List ResponseOutputItem
  usage : Option RespUsage
  deriving Repr, DecidableEq

/-- The converted chat completion (object tag, choices wrapper with
index 0 and null logprobs implicit). -/
structure ChatCompletionOut where
  id : String
  created : Nat
  model : String
  message : ChatMessageOut
  finish_reason : String
  usage : Option UsageOut
  deriving Repr, DecidableEq

/-- function convertResponseToChatCompletion. -/
def convertResponseToChatCompletion (resp : ResponseObject) :
    ChatCompletionOut :=
  let content := extractOutputContent resp.output
  let finishReason := determineFinishReason content.toolCalls resp.status
  let message := buildMessage content
  ⟨resp.id, resp.created_at, resp.model, message, finishReason,
   buildUsage resp.usage⟩

/-- Plain concatenation of a list of strings. -/
def strConcat : List String → String
  | [] => ""
  | t :: ts => t ++ strConcat ts

/-- The concatenated text of all message items, in order. -/
def allText : List ResponseOutputItem → String
  | [] => ""
  | .message c :: rest => strConcat c ++ allText rest
  | _ :: rest => allText rest

/-- The concatenated reasoning-summary text of all reasoning items. -/
def allReasoning : List ResponseOutputItem → String
  | [] => ""
  | .reasoning (some ss) :: rest => strConcat ss ++ allReasoning rest
  | _ :: rest => allReasoning rest

/-- One tool-call record per function_call item, in order. -/
def allCalls : List ResponseOutputItem → List RToolCall
  | [] => []
  | .functionCall cid n a :: rest => ⟨cid, n, a⟩ :: allCalls rest
  | _ :: rest => allCalls rest

/-- Whether any function_call item exists. -/
def hasFunctionCallItem (l : List ResponseOutputItem) : Bool :=
  l.any fun it =>
    match it with
    | .functionCall _ _ _ => true
    | _ => false

lemma foldl_strAppend (l : List String) :
    ∀ acc : String, l.foldl (fun a t => a ++ t) acc = acc ++ strConcat l := by
  induction l with
  | nil =>
    intro acc
    simp [strConcat, String.append_empty]
  | cons t ts ih =>
    intro acc
    simp [strConcat, ih, String.append_assoc]

/-- The extraction fold accumulates exactly the per-kind concatenations. -/
lemma extract_foldl (output : List ResponseOutputItem) :
    ∀ r : ExtractedContent,
      output.foldl extractItem r
        = ⟨r.textContent ++ allText output,
           r.reasoningContent ++ allReasoning output,
           r.toolCalls ++ allCalls output⟩ := by
  induction output with
  | nil =>
    intro r
    simp [allText, allReasoning, allCalls, String.append_empty]
  | cons item rest ih =>
    intro r
    match item with
    | .message c =>
      rw [List.foldl_cons]
      show rest.foldl extractItem (extractMessageContent c r) = _
      rw [ih]
      simp [extractMessageContent, foldl_strAppend, allText, allReasoning,
        allCalls, String.append_assoc]
    | .reasoning s =>
      rw [List.foldl_cons]
      show rest.foldl extractItem (extractReasoningContent s r) = _
      rw [ih]
      match s with
      | none =>
        simp [extractReasoningContent, allText, allReasoning, allCalls]
      | some ss =>
        simp [extractReasoningContent, foldl_strAppend, allText,
          allReasoning, allCalls, String.append_assoc]
    | .functionCall cid n a =>
      rw [List.foldl_cons]
      show rest.foldl extractItem (extractFunctionCall cid n a r) = _
      rw [ih]
      simp [extractFunctionCall, allText, allReasoning, allCalls]
    | .unknown =>
      rw [List.foldl_cons]
      show rest.foldl extractItem r = _
      rw [ih]
      simp [allText, allReasoning, allCalls]

/-- extractOutputContent computes the three concatenations. -/
lemma extractOutputContent_eq (output : List ResponseOutputItem) :
    extractOutputContent output
      = ⟨allText output, allReasoning output, allCalls output⟩ := by
  rw [extractOutputContent, extract_foldl]
  simp [String.empty_append]

/-- allCalls is empty exactly when no function_call item exists. -/
lemma allCalls_nil_iff (l : List ResponseOutputItem) :
    allCalls l = [] ↔ hasFunctionCallItem l = false := by
  induction l with
  | nil => simp [allCalls, hasFunctionCallItem]
  | cons item rest ih =>
    match item with
    | .message c => simpa [allCalls, hasFunctionCallItem] using ih
    | .reasoning s => simpa [allCalls, hasFunctionCallItem] using ih
    | .functionCall cid n a => simp [allCalls, hasFunctionCallItem]
    | .unknown => simpa [allCalls, hasFunctionCallItem] using ih

end Conv


/-- Claim C8: the finish reason is tool_calls when any function_call item
exists, else length when the status is incomplete, else stop; the message
content is the concatenated text of all message items, null when that
concatenation is empty; reasoning_content and tool_calls are present only
when non-empty; in particular one function_call item with no message item
gives finish_reason tool_calls and null content. -/
theorem claim_c8_response_conversion (resp : Conv.ResponseObject) :
    ((Conv.convertResponseToChatCompletion resp).finish_reason
        = if Conv.hasFunctionCallItem resp.output then "tool_calls"
          else if resp.status = "incomplete" then "length" else "stop")
    ∧ ((Conv.convertResponseToChatCompletion resp).message.content
        = if Conv.allText resp.output = "" then none
          else some (Conv.allText resp.output))
    ∧ ((Conv.convertResponseToChatCompletion resp).message.reasoning_content
        = if Conv.allReasoning resp.output = "" then none
          else some (Conv.allReasoning resp.output))
    ∧ ((Conv.convertResponseToChatCompletion resp).message.tool_calls
        = if Conv.allCalls resp.output = [] then none
          else some (Conv.allCalls resp.output))
    ∧ ((Conv.convertResponseToChatCompletion
          ⟨"r1", 0, "completed", "m", [.functionCall "c1" "f" "x"],
           none⟩).finish_reason = "tool_calls"
        ∧ (Conv.convertResponseToChatCompletion
          ⟨"r1", 0, "completed", "m", [.functionCall "c1" "f" "x"],
           none⟩).message.content = none) := by
  have hext := Conv.extractOutputContent_eq resp.output
  refine ⟨?_, ?_, ?_, ?_, by decide, by decide⟩
  · show Conv.determineFinishReason
        (Conv.extractOutputContent resp.output).toolCalls resp.status = _
    rw [hext]
    by_cases hfc : Conv.hasFunctionCallItem resp.output = true
    · have : Conv.allCalls resp.output ≠ [] := by
        rw [ne_eq, Conv.allCalls_nil_iff, hfc]
        simp
      rw [if_pos hfc]
      simp only [Conv.determineFinishReason]
      rw [if_pos (by cases hv : Conv.allCalls resp.output <;> simp_all)]
    · have hfc' : Conv.hasFunctionCallItem resp.output = false := by
        cases hv : Conv.hasFunctionCallItem resp.output
        · rfl
        · exact absurd hv hfc
      have hnil : Conv.allCalls resp.output = [] :=
        (Conv.allCalls_nil_iff resp.output).mpr hfc'
      rw [if_neg hfc]
      simp only [Conv.determineFinishReason, hnil]
      rfl
  · show (Conv.buildMessage (Conv.extractOutputContent resp.output)).content = _
    rw [hext]
    rfl
  · show (Conv.buildMessage
        (Conv.extractOutputContent resp.output)).reasoning_content = _
    rw [hext]
    rfl
  · show (Conv.buildMessage
        (Conv.extractOutputContent resp.output)).tool_calls = _
    rw [hext]
    simp only [Conv.buildMessage]
    cases hv : Conv.allCalls resp.output with
    | nil => rfl
    | cons c cs => simp
